import Mathlib

/-!
Verification of the gopy binding generator (package `bind`).

This file gives a shallow embedding, in Lean 4, of the core pieces of the
`bind` package of the gopy repository:

* the runtime reference bridge (`cgopy_incref` / `cgopy_decref` and the
  `refs` table, emitted by `gengo.go` as part of `goPreamble`);
* the signature analyzer (`newFuncFrom`, `newSignatureFrom` from
  `package.go`);
* the documentation lookup (`Package.getDoc` from `package.go`);
* the constructor-promotion post-pass (`Package.process` from `package.go`);
* the CPython emitters `cpyGen.genFuncBody` and `cpyGen.genStructInit`
  (from `gencpy.go`).

Go maps are embedded as association lists (`List (κ × α)`); a Go `range`
loop over a map receives the enumeration order as an explicit argument,
since the Go runtime does not fix that order.  Go `int32` arithmetic is
embedded as `Int` arithmetic reduced into the interval `[-2^31, 2^31)` by
`int32wrap`.  A Go function that can `panic` is embedded with an `Option`
result, `none` standing for the panic.

The helper file `symbols.go` of the repository (symbol table, `Var`
builders, `isErrorType`, `isStringer`) is not part of the sources being
verified; the few pieces of it that the embedded functions consume are
modelled from the spec and explicitly marked as such.
-/

namespace GoPy

/-! ## Association-list maps (embedding of Go maps) -/

/-- Lookup in an association list; embeds a Go map read `m[k]` (the `ok`
part of a comma-ok read is `Option.isSome`). -/
def mlookup {α : Type} : List (Int × α) → Int → Option α
  | [], _ => none
  | (k, v) :: rest, key => if k = key then some v else mlookup rest key

/-- Removal from an association list; embeds Go `delete(m, k)`. -/
def merase {α : Type} : List (Int × α) → Int → List (Int × α)
  | [], _ => []
  | (k', v) :: rest, k =>
    if k' = k then merase rest k else (k', v) :: merase rest k

/-- Update of an association list; embeds a Go map write `m[k] = v`.
The representation keeps at most one entry per key. -/
def mupd {α : Type} (m : List (Int × α)) (k : Int) (v : α) : List (Int × α) :=
  (k, v) :: merase m k

/-! ## The reference bridge (`gengo.go`, `goPreamble`, lines 62-126)

The Go code generator emits, verbatim into every generated binder, the
`refs` table and the two exported functions `cgopy_incref` and
`cgopy_decref`.  `refs.next` and the reference counts are Go `int32`
values; `unsafe.Pointer` addresses and reference numbers are embedded as
`Int`. -/

/-- Reduction of an integer into the value range of Go `int32`,
`[-2^31, 2^31)`; embeds Go `int32` wrap-around arithmetic. -/
def int32wrap (x : Int) : Int := (x + 2 ^ 31) % 2 ^ 32 - 2 ^ 31

/-- Embeds the Go struct `cobject` (`gengo.go`): a tracked object's
address together with its live reference count. -/
structure Cobject where
  ptr : Int
  cnt : Int
  deriving DecidableEq, Repr

/-- Embeds the Go variable `refs` (`gengo.go`): the next (always negative)
reference number, the address-to-number map `refs`, and the
number-to-object map `ptrs`.  The `sync.Mutex` only serializes accesses
and has no sequential content. -/
structure RefsState where
  next : Int
  refs : List (Int × Int)
  ptrs : List (Int × Cobject)
  deriving DecidableEq, Repr

/-- Embeds the `init` function of the generated binder (`gengo.go`,
lines 114-124): `refs.next = -24`, empty maps. -/
def refsInit : RefsState := { next := -24, refs := [], ptrs := [] }

/-- The zero value of `cobject`; a Go map read of an absent key yields it. -/
def cobjZero : Cobject := { ptr := 0, cnt := 0 }

/-- Embeds `cgopy_incref` (`gengo.go`, lines 77-94).  The Go function is
declared `void`; the reference number it associates with `ptr` (the local
variable `num`) is returned here alongside the updated state so that the
spec's `acquire(address) -> handleId` contract can be stated.  `none`
embeds the `panic("refs.next underflow")` path. -/
def cgopy_incref (s : RefsState) (ptr : Int) : Option (RefsState × Int) :=
  match mlookup s.refs ptr with
  | some num =>
    let c := (mlookup s.ptrs num).getD cobjZero
    some ({ s with ptrs := mupd s.ptrs num ⟨c.ptr, int32wrap (c.cnt + 1)⟩ }, num)
  | none =>
    let num := s.next
    let next' := int32wrap (s.next - 1)
    if next' > 0 then
      none
    else
      some ({ next := next',
              refs := mupd s.refs ptr num,
              ptrs := mupd s.ptrs num ⟨ptr, 1⟩ }, num)

/-- Embeds `cgopy_decref` (`gengo.go`, lines 96-112).  `none` embeds the
`panic("cgopy: decref untracked object")` path. -/
def cgopy_decref (s : RefsState) (ptr : Int) : Option RefsState :=
  match mlookup s.refs ptr with
  | none => none
  | some num =>
    let c := (mlookup s.ptrs num).getD cobjZero
    if int32wrap (c.cnt - 1) ≤ 0 then
      some { s with ptrs := merase s.ptrs num, refs := merase s.refs ptr }
    else
      some { s with ptrs := mupd s.ptrs num ⟨c.ptr, int32wrap (c.cnt - 1)⟩ }

/-- One call arriving at the reference bridge from a generated call site. -/
inductive BridgeOp where
  | incref (addr : Int)
  | decref (addr : Int)
  deriving DecidableEq, Repr

/-- Runs one bridge operation; returns the new state and the list of
reference numbers newly assigned by the operation (empty or a
singleton). -/
def stepOp (s : RefsState) : BridgeOp → Option (RefsState × List Int)
  | .incref a =>
    match mlookup s.refs a with
    | some _ =>
      (cgopy_incref s a).map (fun p => (p.1, []))
    | none =>
      (cgopy_incref s a).map (fun p => (p.1, [p.2]))
  | .decref a => (cgopy_decref s a).map (fun s' => (s', []))

/-- Runs a sequence of bridge operations from a state, collecting the
newly assigned reference numbers in order of assignment; `none` if any
operation panics. -/
def runOps (s : RefsState) : List BridgeOp → Option (RefsState × List Int)
  | [] => some (s, [])
  | op :: rest =>
    match stepOp s op with
    | none => none
    | some p =>
      match runOps p.1 rest with
      | none => none
      | some q => some (q.1, p.2 ++ q.2)

/-! ## The Go type and declaration model (`package.go`) -/

/-- Embeds the fragment of `go/types.Type` that the analyzed surface
needs: the universe `error` type and other types identified by their
canonical name.  Two `types.Type` values obtained from one type-checker
run are pointer-equal in Go exactly when they denote the same type; the
embedding reflects this as equality. -/
inductive GoType where
  | error : GoType
  | named : String → GoType
  deriving DecidableEq, Repr

/-- Modelled from the spec: `isErrorType` is defined in `symbols.go`,
which is not among the sources; per the spec a result "denotes failure
indicator" exactly when its type is the universe `error` type. -/
def isErrorType : GoType → Bool
  | .error => true
  | _ => false

/-- Modelled from the spec: the `Var` builder (`newVarFrom` in the absent
`symbols.go`) records a tuple element's name and type; only those two
fields are consumed by the embedded functions.  The same shape also
embeds `go/types.Var` tuple elements. -/
structure Var where
  name : String
  typ : GoType
  deriving DecidableEq, Repr

/-- Embeds `go/types.Signature`: receiver, parameters and results. -/
structure TypesSignature where
  recv : Option Var
  params : List Var
  results : List Var
  deriving DecidableEq, Repr

/-- Embeds `Signature` (`package.go`, lines 410-415). -/
structure Signature where
  ret : List Var
  args : List Var
  recv : Option Var
  deriving DecidableEq, Repr

/-- Embeds `newSignatureFrom` (`package.go`, lines 417-428).  The helper
`newVarsFrom` (absent `symbols.go`) builds one `Var` per tuple element
preserving order and content, so the embedding reuses the tuples. -/
def newSignatureFrom (sig : TypesSignature) : Signature :=
  { ret := sig.results, args := sig.params, recv := sig.recv }

/-- Embeds `go/doc.Value` (documentation of a const/var block). -/
structure DocValue where
  names : List String
  doc : String
  deriving DecidableEq, Repr

/-- Embeds `go/doc.Func`. -/
structure DocFunc where
  name : String
  doc : String
  deriving DecidableEq, Repr

/-- Embeds `go/doc.Type`: its doc string, its methods, and the factory
functions `go/doc` associates with the type. -/
structure DocType where
  name : String
  doc : String
  methods : List DocFunc
  funcs : List DocFunc
  deriving DecidableEq, Repr

/-- Embeds the fragment of `go/doc.Package` that `Package` consumes. -/
structure DocPackage where
  importPath : String
  doc : String
  consts : List DocValue
  vars : List DocValue
  types : List DocType
  funcs : List DocFunc
  deriving DecidableEq, Repr

/-- Embeds the kinds of `go/types.Object` handled by `Package.getDoc`. -/
inductive ObjKind where
  | const | var | func | typeName
  deriving DecidableEq, Repr

/-- Embeds the fragment of `go/types.Object` consumed by `getDoc` and
`newFuncFrom`: kind, name, whether `Parent()` is non-nil (true for
package-scope objects, false for method-set members), the signature (for
funcs), the owning package's name and path, and the `%s`/`%v` rendering
used in error messages. -/
structure Object where
  kind : ObjKind
  name : String
  hasParent : Bool
  sig : TypesSignature
  pkgName : String
  pkgPath : String
  str : String
  deriving DecidableEq, Repr

/-- Embeds the fields of `Package` (`package.go`, lines 17-29) consumed
by the embedded functions.  The symbol table `p.syms` (absent
`symbols.go`) is represented by its one consumed datum, the Python
signature string `p.syms.symtype(t).pysig` of a type (modelled from the
spec's externally supplied type/documentation index). -/
structure Package where
  name : String
  doc : DocPackage
  pysig : GoType → String

/-- Embeds the anonymous lookup closure inside the `*types.Func` branch
of `Package.getDoc` (`package.go`, lines 84-112): methods (nil `Parent`)
and, for a nonempty `parent`, factory functions are searched in the
doc-types; package-scope functions with empty `parent` are searched in
the package's function docs; no match gives the empty string. -/
def funcDocLookup (p : Package) (parent : String) (o : Object) : String :=
  let n := o.name
  if o.hasParent = false ∨ (o.hasParent = true ∧ parent ≠ "") then
    (p.doc.types.findSome? (fun typ =>
      if typ.name ≠ parent then none
      else if o.hasParent = false then
        (typ.methods.find? (fun m => m.name = n)).map (fun m => m.doc)
      else
        (typ.funcs.find? (fun m => m.name = n)).map (fun m => m.doc))).getD ""
  else
    ((p.doc.funcs.find? (fun f => n = f.name)).map (fun f => f.doc)).getD ""

/-- Embeds the `docSig` synthesis of the `*types.Func` branch of
`Package.getDoc` (`package.go`, lines 114-139): the signature line
`Name(params) results` rendered from the symbol table's Python
signature strings. -/
def funcDocSig (p : Package) (o : Object) : String :=
  let parseFn := fun (tup : List Var) =>
    tup.map (fun paramVar =>
      let paramType := p.pysig paramVar.typ
      if paramVar.name ≠ "" then paramType ++ " " ++ paramVar.name
      else paramType)
  let params := parseFn o.sig.params
  let results := parseFn o.sig.results
  let paramString := String.intercalate ", " params
  let resultString := String.intercalate ", " results
  o.name ++ "(" ++ paramString ++ ") " ++ resultString

/-- Embeds `Package.getDoc` (`package.go`, lines 60-161): documentation
lookup for a declaration, keyed by the containing scope name (`parent`,
empty for global scope) and the object.  For functions the result always
starts with the synthesized signature line. -/
def getDoc (p : Package) (parent : String) (o : Object) : String :=
  let n := o.name
  match o.kind with
  | .const =>
    match p.doc.consts.find? (fun c => c.names.contains n) with
    | some c => c.doc
    | none => ""
  | .var =>
    match p.doc.vars.find? (fun v => v.names.contains n) with
    | some v => v.doc
    | none => ""
  | .func =>
    let doc := funcDocLookup p parent o
    let docSig := funcDocSig p o
    if doc ≠ "" then docSig ++ "\n\n" ++ doc else docSig
  | .typeName =>
    ((p.doc.types.find? (fun t => n = t.name)).map (fun t => t.doc)).getD ""

/-- Embeds `Func` (`package.go`, lines 450-463); the back-pointer field
`pkg` is omitted (never consumed by the embedded functions). -/
structure Func where
  sig : Signature
  typ : Option TypesSignature
  name : String
  desc : String
  id : String
  doc : String
  ret : Option GoType
  err : Bool
  ctor : Bool
  deriving DecidableEq, Repr

/-- Embeds `newFuncFrom` (`package.go`, lines 465-512); the `Except`
error embeds the non-nil `error` result of the Go function. -/
def newFuncFrom (p : Package) (parent : String) (obj : Object)
    (sig : TypesSignature) : Except String Func :=
  let res := sig.results
  let analyzed : Except String (Bool × Option GoType) :=
    match res with
    | [r0, r1] =>
      if isErrorType r1.typ then .ok (true, some r0.typ)
      else
        .error ("bind: second result value must be of type error: " ++ obj.str)
    | [r0] =>
      if isErrorType r0.typ then .ok (true, none)
      else .ok (false, some r0.typ)
    | [] => .ok (false, none)
    | _ => .error ("bind: too many results to return: " ++ obj.str)
  match analyzed with
  | .error e => .error e
  | .ok (haserr, ret) =>
    let desc :=
      if parent ≠ "" then obj.pkgPath ++ "." ++ parent ++ "." ++ obj.name
      else obj.pkgPath ++ "." ++ obj.name
    let id :=
      if parent ≠ "" then obj.pkgName ++ "_" ++ parent ++ "_" ++ obj.name
      else obj.pkgName ++ "_" ++ obj.name
    .ok { sig := newSignatureFrom sig, typ := some sig, name := obj.name,
          desc := desc, id := id, doc := getDoc p parent obj,
          ret := ret, err := haserr, ctor := false }

/-! ## Constructor promotion (`Package.process`) and emission order -/

/-- Embeds the fields of `Type` (`package.go`, lines 313-331) consumed by
the constructor-promotion pass: the underlying Go type (`t.GoType()`,
backed by `t.sym`) and the constructor list.  (`Type` is a reserved word
in Lean, hence the name `Typ`.) -/
structure Typ where
  goType : GoType
  ctors : List Func
  deriving DecidableEq, Repr

/-- Embeds the constructor-promotion loop of `Package.process`
(`package.go`, lines 213-227): iterating the `typs` map in the given
enumeration order, each type collects — in `funcs` enumeration order —
the functions whose `Return()` equals its Go type; collected functions
are deleted from the map, have their doc re-fetched in the type's scope
(`scope.Lookup` is passed in as `lookup`), get the ctor flag set, and
are appended to the type's ctor list.  Method attachment (lines 229-245)
touches neither `funcs` nor `ctors` and is omitted. -/
def processTyps (p : Package) (lookup : String → Object) :
    List (String × Typ) → List (String × Func) →
      List (String × Typ) × List (String × Func)
  | [], funcs => ([], funcs)
  | (tname, t) :: ts, funcs =>
    let matched := funcs.filter (fun nf => nf.2.ret = some t.goType)
    let rest := funcs.filter (fun nf => ¬ (nf.2.ret = some t.goType))
    let t' := { t with ctors := t.ctors ++ matched.map (fun nf =>
        { nf.2 with doc := getDoc p tname (lookup nf.1), ctor := true }) }
    let pr := processTyps p lookup ts rest
    ((tname, t') :: pr.1, pr.2)

/-- Embeds the final loop of `Package.process` (`package.go`, lines
249-251): the surviving free functions are appended to `p.funcs` in the
`funcs` map's enumeration order. -/
def addFuncs (funcs : List (String × Func)) : List Func := funcs.map Prod.snd

/-- Embeds the module-level emission order of `goGen.gen` (`gengo.go`,
lines 166-168): one `cgo_func_<id>` wrapper is printed per entry of
`pkg.funcs`, in list order (`goGen.genFunc`, lines 198-208); this lists
the emitted wrapper names in output order. -/
def goGenFuncNames (funcs : List Func) : List String :=
  funcs.map (fun f => "cgo_func_" ++ f.id)

/-! ## Concrete example entities -/

/-- A documentation package with no entries. -/
def docPkgEx : DocPackage :=
  { importPath := "ex/pkg", doc := "", consts := [], vars := [],
    types := [], funcs := [] }

/-- An example `Package` with an empty documentation index whose symbol
table renders every type's Python signature as `"object"`. -/
def pkgEx : Package := { name := "pkg", doc := docPkgEx, pysig := fun _ => "object" }

/-- The signature of `func NewFoo() (Foo, error)`. -/
def sigNewFoo : TypesSignature :=
  { recv := none, params := [],
    results := [⟨"", .named "ex/pkg.Foo"⟩, ⟨"", .error⟩] }

/-- The package-scope object `NewFoo`. -/
def objNewFoo : Object :=
  { kind := .func, name := "NewFoo", hasParent := true, sig := sigNewFoo,
    pkgName := "pkg", pkgPath := "ex/pkg",
    str := "func ex/pkg.NewFoo() (Foo, error)" }

/-- The Func that `newFuncFrom` builds for `NewFoo() (Foo, error)`. -/
def fNewFoo : Func :=
  { sig := { ret := [⟨"", .named "ex/pkg.Foo"⟩, ⟨"", .error⟩],
             args := [], recv := none },
    typ := some sigNewFoo, name := "NewFoo", desc := "ex/pkg.NewFoo",
    id := "pkg_NewFoo", doc := "NewFoo() object, object",
    ret := some (.named "ex/pkg.Foo"), err := true, ctor := false }

/-- The classified type `Foo` before promotion. -/
def fooTyp : Typ := { goType := .named "ex/pkg.Foo", ctors := [] }

/-- The package-scope function object `Hi` (no parameters, no results,
no documentation entry anywhere). -/
def objHi : Object :=
  { kind := .func, name := "Hi", hasParent := true,
    sig := { recv := none, params := [], results := [] },
    pkgName := "pkg", pkgPath := "ex/pkg", str := "func ex/pkg.Hi()" }

/-- An undocumented constant object. -/
def objKonst : Object :=
  { kind := .const, name := "K", hasParent := true,
    sig := { recv := none, params := [], results := [] },
    pkgName := "pkg", pkgPath := "ex/pkg", str := "const ex/pkg.K" }

/-- An undocumented variable object. -/
def objVee : Object :=
  { kind := .var, name := "V", hasParent := true,
    sig := { recv := none, params := [], results := [] },
    pkgName := "pkg", pkgPath := "ex/pkg", str := "var ex/pkg.V" }

/-- An undocumented type-name object. -/
def objTee : Object :=
  { kind := .typeName, name := "T", hasParent := true,
    sig := { recv := none, params := [], results := [] },
    pkgName := "pkg", pkgPath := "ex/pkg", str := "type ex/pkg.T" }

/-- The Func built for a free function `Add()`. -/
def funcAdd : Func :=
  { sig := { ret := [], args := [], recv := none },
    typ := some { recv := none, params := [], results := [] },
    name := "Add", desc := "ex/pkg.Add", id := "pkg_Add", doc := "Add() ",
    ret := none, err := false, ctor := false }

/-- The Func built for a free function `Sub()`. -/
def funcSub : Func :=
  { sig := { ret := [], args := [], recv := none },
    typ := some { recv := none, params := [], results := [] },
    name := "Sub", desc := "ex/pkg.Sub", id := "pkg_Sub", doc := "Sub() ",
    ret := none, err := false, ctor := false }

/-! ## The CPython emitter (`gencpy.go`)

The generator prints C source text through a sequence of `Printf` calls;
the embedding records the output as the list of printed chunks, in print
order (the `printer` of the absent `gen.go` only adds indentation
whitespace, which is not modelled).  Braces that are literal text are
written `\x7b`/`\x7d`. -/

/-- Modelled from the spec: the per-variable emission helpers of the
CPython generator (`Var.genRecvDecl`, `genDecl`, `getFuncArg`,
`getArgParse`, `getArgBuildValue`, `genRetDecl`, `genRecvImpl`,
`genFuncPreamble` and the symbol accessors, all in the absent
`symbols.go`) each produce text determined by the variable.  The
generator model is parametrized over these fragments, so the theorems
hold for every choice of them. -/
structure VarEmit where
  recvDecl : Var → String
  recvImpl : Var → String
  getFuncArg : Var → String
  genDecl : Var → String
  genRetDecl : Var → String
  argParseFmt : Var → String
  argParseAddrs : Var → List String
  funcPreamble : Var → String
  buildValueFmt : Var → String
  buildValueAddrs : Var → List String
  symId : Var → String
  symCpyname : Var → String

/-- Quotation as Go's `%q` verb renders it; escaping of special
characters inside the string is not modelled (no theorem depends on
it). -/
def goQuote (s : String) : String := "\"" ++ s ++ "\""

/-- The chunk `"Py_INCREF(Py_None);\nreturn Py_None;\n"` printed for
calls that produce no Python value. -/
def pyNoneReturn : String := "Py_INCREF(Py_None);\nreturn Py_None;\n"

/-- The error-translation block emitted by `genFuncBody` for an
error-convention Func (`gencpy.go`, lines 287-294 and 299-306): test the
failure indicator, set a Python `RuntimeError` carrying the error's
message, free the C string, and return the failure sentinel `NULL`. -/
def cpyErrBlock (errExpr : String) : List String :=
  ["if (!_cgopy_ErrorIsNil(" ++ errExpr ++ ")) \x7b\n",
   "const char* c_err_str = _cgopy_ErrorString(" ++ errExpr ++ ");\n",
   "PyErr_SetString(PyExc_RuntimeError, c_err_str);\n",
   "free((void*)c_err_str);\n",
   "return NULL;\n",
   "\x7d\n\n"]

/-- The constructor-return block of `genFuncBody` (`gencpy.go`, lines
307-323 and 336-352): allocate the wrapper object and store the handle
from `src` into its `cgopy` field. -/
def cpyCtorReturn (ve : VarEmit) (ret : Var) (src : String) : List String :=
  ["PyObject *o = cpy_func_" ++ ve.symId ret ++ "_new(&" ++
     ve.symCpyname ret ++ "Type, 0, 0);\n",
   "if (o == NULL) \x7b\n",
   "return NULL;\n",
   "\x7d\n",
   "((" ++ ve.symCpyname ret ++ "*)o)->cgopy = " ++ src ++ ";\n",
   "return o;\n"]

/-- The chunks `genFuncBody` prints before the result dispatch
(`gencpy.go`, lines 213-277): receiver, argument and return-value
declarations, the `PyArg_ParseTuple` block, the per-argument preambles,
and the call into the cgo wrapper. -/
def cpyFuncPre (ve : VarEmit) (f : Func) : List String :=
  let id := f.id
  let res := f.sig.ret
  let args := f.sig.args
  let recvDecls := match f.sig.recv with
    | some recv => [ve.recvDecl recv]
    | none => []
  let funcArgs := (match f.sig.recv with
    | some recv => [ve.getFuncArg recv]
    | none => []) ++ args.map ve.getFuncArg
  let argDecls := args.map ve.genDecl
  let retDecls : List String :=
    if 0 < res.length then
      match res with
      | [ret] => [ve.genRetDecl ret]
      | _ => ["struct cgo_func_" ++ id ++ "_return c_gopy_ret;\n"]
    else []
  let recvImpls := match f.sig.recv with
    | some recv => [ve.recvImpl recv]
    | none => []
  let parseChunks : List String :=
    if 0 < args.length then
      ["if (!PyArg_ParseTuple(args, ",
       goQuote (String.join (args.map ve.argParseFmt)) ++ ", " ++
         String.intercalate ", " ((args.map ve.argParseAddrs).flatten) ++ ")) \x7b\n",
       "return NULL;\n",
       "\x7d\n\n"]
    else []
  let preambles : List String :=
    if 0 < args.length then args.map ve.funcPreamble ++ ["\n"] else []
  recvDecls ++ argDecls ++ retDecls ++ ["\n"] ++ recvImpls ++ parseChunks ++
    preambles ++
    (if 0 < res.length then ["c_gopy_ret = "] else []) ++
    ["cgo_func_" ++ id ++ "(" ++ String.intercalate ", " funcArgs ++ ");\n",
     "\n"]

/-- Embeds `cpyGen.genFuncBody` (`gencpy.go`, lines 213-375) as the list
of printed chunks; `none` embeds the Go `panic` on an error-convention
Func with more than two results (lines 328-333). -/
def cpyGenFuncBody (ve : VarEmit) (f : Func) : Option (List String) :=
  let pre := cpyFuncPre ve f
  if f.sig.ret.length ≤ 0 then some (pre ++ [pyNoneReturn])
  else if f.err then
    match f.sig.ret with
    | [_] => some (pre ++ cpyErrBlock "c_gopy_ret" ++ [pyNoneReturn])
    | [r0, _] =>
      some (pre ++ cpyErrBlock "c_gopy_ret.r1" ++
        (if f.ctor then cpyCtorReturn ve r0 "c_gopy_ret.r0"
         else ["return Py_BuildValue(" ++ goQuote (ve.buildValueFmt r0) ++
           ", c_gopy_ret.r0);\n"]))
    | _ => none
  else if f.ctor then
    match f.sig.ret with
    | r0 :: _ => some (pre ++ cpyCtorReturn ve r0 "c_gopy_ret")
    | [] => none
  else
    match f.sig.ret with
    | [ret0] =>
      some (pre ++ ["return Py_BuildValue(" ++
        goQuote (ve.buildValueFmt { ret0 with name := "gopy_ret" }) ++ ", " ++
        String.intercalate ", "
          (ve.buildValueAddrs { ret0 with name := "gopy_ret" }) ++ ");\n"])
    | rs =>
      some (pre ++ ["return Py_BuildValue(" ++
        goQuote (String.join (rs.map ve.buildValueFmt)) ++ ", " ++
        String.intercalate ", " ((rs.map ve.buildValueAddrs).flatten) ++ ");\n"])

/-- Modelled from the spec plus `gencpy.go` usage: the `Struct` entity
(its builder lives outside the given sources) exposes its package name,
its Go name, its symbol id and generated CPython type name, and its
promoted constructor list. -/
structure Struct where
  pkgname : String
  goname : String
  symId : String
  cpyname : String
  ctors : List Func

/-- The `kwds` map built by `genStructInit` (`gencpy.go`, lines
479-488): every constructor parameter name, mapped to its index in
first-encounter order. -/
def structInitKwds (ctors : List Func) : List (String × Nat) :=
  ctors.foldl (fun kwds ctor =>
    ctor.sig.args.foldl (fun kwds arg =>
      if (kwds.map Prod.fst).contains arg.name then kwds
      else kwds ++ [(arg.name, kwds.length)]) kwds) []

/-- The argument-rejection guard emitted into every generated `tp_init`
(`gencpy.go`, lines 502-512). -/
def structInitArgGuard (goname : String) : List String :=
  ["Py_ssize_t nkwds = (kwds != NULL) ? PyDict_Size(kwds) : 0;\n",
   "Py_ssize_t nargs = (args != NULL) ? PySequence_Size(args) : 0;\n",
   "if ((nkwds + nargs) > 0) \x7b\n",
   "PyErr_SetString(PyExc_TypeError, ",
   goQuote (goname ++ ".__init__ takes no argument") ++ ");\n",
   "return -1;\n",
   "\x7d\n\n"]

/-- Embeds `cpyGen.genStructInit` (`gencpy.go`, lines 461-517) as the
pair of chunk lists printed to the declaration and implementation
buffers.  The two `range` loops over the `kwds` map receive their
enumeration order as `kwOrder` (the Go runtime does not fix it). -/
def cpyGenStructInit (cpy : Struct) (kwOrder : List (String × Nat)) :
    List String × List String :=
  let decl :=
    ["/* tp_init for " ++ cpy.pkgname ++ "." ++ cpy.goname ++ " */\n",
     "static int\ncpy_func_" ++ cpy.symId ++ "_init(" ++ cpy.cpyname ++
       " *self, PyObject *args, PyObject *kwds);\n"]
  let impl :=
    ["/* tp_init */\n",
     "static int\ncpy_func_" ++ cpy.symId ++ "_init(" ++ cpy.cpyname ++
       " *self, PyObject *args, PyObject *kwds) \x7b\n",
     "static char *kwlist[] = \x7b\n"] ++
    kwOrder.map (fun kv => goQuote kv.1 ++ ", /* py_kwd_" ++ toString kv.2 ++ " */\n") ++
    ["NULL\n", "\x7d;\n"] ++
    kwOrder.map (fun kv => "PyObject *py_kwd_" ++ toString kv.2 ++ " = NULL;\n") ++
    structInitArgGuard cpy.goname ++
    ["return 0;\n", "\x7d\n\n"]
  (decl, impl)

/-- Modelled from the emitted C of `structInitArgGuard` and the trailing
`return 0`: the run-time behavior of a generated `tp_init` given the
number of positional and keyword arguments — the return code and the
raised exception's type and message, if any. -/
def cpyStructInitRun (goname : String) (nargs nkwds : Nat) :
    Int × Option (String × String) :=
  if 0 < nkwds + nargs then
    (-1, some ("PyExc_TypeError", goname ++ ".__init__ takes no argument"))
  else (0, none)

/-- A concrete fragment assignment for the Var emission helpers. -/
def veEx : VarEmit :=
  { recvDecl := fun v => "PyObject* c_recv_" ++ v.name ++ ";\n",
    recvImpl := fun v => "c_recv_" ++ v.name ++ " = self;\n",
    getFuncArg := fun v => "c_" ++ v.name,
    genDecl := fun v => "PyObject* c_" ++ v.name ++ ";\n",
    genRetDecl := fun _ => "PyObject* c_gopy_ret;\n",
    argParseFmt := fun _ => "O",
    argParseAddrs := fun v => ["&c_" ++ v.name],
    funcPreamble := fun _ => "",
    buildValueFmt := fun _ => "O",
    buildValueAddrs := fun v => ["&c_" ++ v.name],
    symId := fun _ => "pkg_Foo",
    symCpyname := fun _ => "PkgFoo" }

/-- The Func built for an error-only function `func Do() error`. -/
def fDoErr : Func :=
  { sig := { ret := [⟨"", .error⟩], args := [], recv := none },
    typ := some { recv := none, params := [], results := [⟨"", .error⟩] },
    name := "Do", desc := "ex/pkg.Do", id := "pkg_Do", doc := "Do() object",
    ret := none, err := true, ctor := false }

/-- The wrapped struct `Foo` with its one promoted constructor. -/
def structEx : Struct :=
  { pkgname := "pkg", goname := "Foo", symId := "pkg_Foo",
    cpyname := "PkgFoo", ctors := [{ fNewFoo with ctor := true }] }

/-! ## Theorems -/

theorem mlookup_merase_self {α : Type} (m : List (Int × α)) (k : Int) :
    mlookup (merase m k) k = none := by
  induction m with
  | nil => simp [mlookup, merase]
  | cons p rest ih =>
    cases p with
    | mk pk pv =>
      by_cases hp : pk = k
      · simpa [merase, hp] using ih
      · simp [merase, mlookup, hp, ih]

theorem mlookup_merase_ne {α : Type} (m : List (Int × α)) (k k' : Int)
    (h : k' ≠ k) :
    mlookup (merase m k) k' = mlookup m k' := by
  induction m with
  | nil => simp [merase]
  | cons p rest ih =>
    cases p with
    | mk pk pv =>
      have hkk' : ¬ (k = k') := fun hc => h hc.symm
      by_cases hp : pk = k
      · have hpk : ¬ pk = k' := fun hc => h (hc ▸ hp)
        simp [merase, mlookup, hp, hpk, hkk', ih]
      · by_cases hk' : pk = k'
        · simp [merase, mlookup, hp, hk', h]
        · simp [merase, mlookup, hp, hk', ih]

theorem mlookup_mupd_self {α : Type} (m : List (Int × α)) (k : Int) (v : α) :
    mlookup (mupd m k v) k = some v := by
  simp [mlookup, mupd]

theorem mlookup_mupd_ne {α : Type} (m : List (Int × α)) (k k' : Int) (v : α)
    (h : k' ≠ k) :
    mlookup (mupd m k v) k' = mlookup m k' := by
  simp [mlookup, mupd, Ne.symm h, mlookup_merase_ne m k k' h]

theorem int32wrap_eq_self (x : Int) (h1 : -2 ^ 31 ≤ x) (h2 : x < 2 ^ 31) :
    int32wrap x = x := by
  unfold int32wrap
  have hlo : (0 : Int) ≤ x + 2 ^ 31 := by omega
  have hhi : x + 2 ^ 31 < 2 ^ 32 := by omega
  rw [Int.emod_eq_of_lt hlo hhi]
  omega

theorem filter_merase_self {α : Type} (m : List (Int × α)) (k : Int) :
    (merase m k).filter (fun p => p.1 = k) = [] := by
  induction m with
  | nil => rfl
  | cons p rest ih =>
    cases p with
    | mk pk pv =>
      by_cases hp : pk = k
      · simpa [merase, hp] using ih
      · simp [merase, hp, List.filter_cons, ih]

theorem filter_mupd_self {α : Type} (m : List (Int × α)) (k : Int) (v : α) :
    (mupd m k v).filter (fun p => p.1 = k) = [(k, v)] := by
  simp [mupd, List.filter_cons, filter_merase_self]

/-- C2: `cgopy_incref` (acquire) increments the count and yields the
existing reference number for an already-tracked address; for an
untracked address it assigns `refs.next` (which then decreases), inserts
the address with count 1, and yields the new number; acquiring the same
untracked address twice leaves exactly one entry for it, with count 2,
and both calls yield the same number. -/
theorem cgopy_incref_spec (s : RefsState) (a : Int) :
    (∀ num c, mlookup s.refs a = some num →
      mlookup s.ptrs num = some c →
      -2 ^ 31 ≤ c.cnt + 1 → c.cnt + 1 < 2 ^ 31 →
      ∃ s', cgopy_incref s a = some (s', num) ∧
        mlookup s'.ptrs num = some ⟨c.ptr, c.cnt + 1⟩ ∧
        s'.refs = s.refs ∧ s'.next = s.next) ∧
    (mlookup s.refs a = none → -2 ^ 31 < s.next → s.next ≤ 0 →
      ∃ s', cgopy_incref s a = some (s', s.next) ∧
        mlookup s'.refs a = some s.next ∧
        mlookup s'.ptrs s.next = some ⟨a, 1⟩ ∧
        s'.next = s.next - 1) ∧
    (mlookup s.refs a = none → -2 ^ 31 < s.next → s.next ≤ 0 →
      ∀ s1 i1 s2 i2,
        cgopy_incref s a = some (s1, i1) →
        cgopy_incref s1 a = some (s2, i2) →
        i1 = i2 ∧ mlookup s2.refs a = some i1 ∧
        mlookup s2.ptrs i1 = some ⟨a, 2⟩ ∧
        (s2.refs.filter (fun p => p.1 = a)).length = 1) := by
  have hw2 : int32wrap 2 = 2 := int32wrap_eq_self 2 (by norm_num) (by norm_num)
  refine ⟨?_, ?_, ?_⟩
  · intro num c h1 h2 hlo hhi
    have hw : int32wrap (c.cnt + 1) = c.cnt + 1 := int32wrap_eq_self _ hlo hhi
    refine ⟨{ s with ptrs := mupd s.ptrs num ⟨c.ptr, c.cnt + 1⟩ }, ?_, ?_, rfl, rfl⟩
    · simp [cgopy_incref, h1, h2, hw]
    · exact mlookup_mupd_self ..
  · intro h0 hgt hle
    have hw : int32wrap (s.next - 1) = s.next - 1 :=
      int32wrap_eq_self _ (by omega) (by omega)
    have hng : ¬ (int32wrap (s.next - 1) > 0) := by rw [hw]; omega
    refine ⟨{ next := int32wrap (s.next - 1),
              refs := mupd s.refs a s.next,
              ptrs := mupd s.ptrs s.next ⟨a, 1⟩ }, ?_, ?_, ?_, hw⟩
    · simp [cgopy_incref, h0, hng]
    · exact mlookup_mupd_self ..
    · exact mlookup_mupd_self ..
  · intro h0 hgt hle s1 i1 s2 i2 hc1 hc2
    have hw : int32wrap (s.next - 1) = s.next - 1 :=
      int32wrap_eq_self _ (by omega) (by omega)
    have hng : ¬ (int32wrap (s.next - 1) > 0) := by rw [hw]; omega
    have he1 : cgopy_incref s a =
        some ({ next := int32wrap (s.next - 1),
                refs := mupd s.refs a s.next,
                ptrs := mupd s.ptrs s.next ⟨a, 1⟩ }, s.next) := by
      simp [cgopy_incref, h0, hng]
    rw [he1] at hc1
    obtain ⟨rfl, rfl⟩ := Prod.mk.inj (Option.some.inj hc1)
    have hl1 : mlookup (mupd s.refs a s.next) a = some s.next := mlookup_mupd_self ..
    have hp1 : mlookup (mupd s.ptrs s.next (⟨a, 1⟩ : Cobject)) s.next = some ⟨a, 1⟩ :=
      mlookup_mupd_self ..
    have he2 : cgopy_incref
        ({ next := int32wrap (s.next - 1),
           refs := mupd s.refs a s.next,
           ptrs := mupd s.ptrs s.next ⟨a, 1⟩ } : RefsState) a =
        some ({ next := int32wrap (s.next - 1),
                refs := mupd s.refs a s.next,
                ptrs := mupd (mupd s.ptrs s.next ⟨a, 1⟩) s.next ⟨a, 2⟩ }, s.next) := by
      simp [cgopy_incref, hl1, hp1, hw2]
    rw [he2] at hc2
    obtain ⟨rfl, rfl⟩ := Prod.mk.inj (Option.some.inj hc2)
    refine ⟨rfl, mlookup_mupd_self .., mlookup_mupd_self .., ?_⟩
    simp [filter_mupd_self]

/-- Concrete instantiation of `cgopy_incref_spec`: address 7 against a
one-entry table (tracked case) and against the initial table (untracked
and double-acquire cases). -/
theorem cgopy_incref_spec_witness :
    (∃ s', cgopy_incref ⟨-25, [(7, -24)], [(-24, ⟨7, 1⟩)]⟩ 7 = some (s', -24) ∧
        mlookup s'.ptrs (-24) = some ⟨7, 2⟩ ∧
        s'.refs = [(7, -24)] ∧ s'.next = -25) ∧
    (∃ s', cgopy_incref refsInit 7 = some (s', -24) ∧
        mlookup s'.refs 7 = some (-24) ∧
        mlookup s'.ptrs (-24) = some ⟨7, 1⟩ ∧
        s'.next = -25) ∧
    ((-24 : Int) = -24 ∧
      mlookup (⟨-25, [(7, -24)], [(-24, ⟨7, 2⟩)]⟩ : RefsState).refs 7 = some (-24) ∧
      mlookup (⟨-25, [(7, -24)], [(-24, ⟨7, 2⟩)]⟩ : RefsState).ptrs (-24) = some ⟨7, 2⟩ ∧
      ((⟨-25, [(7, -24)], [(-24, ⟨7, 2⟩)]⟩ : RefsState).refs.filter
        (fun p => p.1 = 7)).length = 1) := by
  refine ⟨?_, ?_, ?_⟩
  · exact (cgopy_incref_spec ⟨-25, [(7, -24)], [(-24, ⟨7, 1⟩)]⟩ 7).1
      (-24) ⟨7, 1⟩ (by decide) (by decide) (by norm_num) (by norm_num)
  · exact (cgopy_incref_spec refsInit 7).2.1 (by decide) (by norm_num [refsInit])
      (by norm_num [refsInit])
  · exact (cgopy_incref_spec refsInit 7).2.2 (by decide) (by norm_num [refsInit])
      (by norm_num [refsInit])
      ⟨-25, [(7, -24)], [(-24, ⟨7, 1⟩)]⟩ (-24)
      ⟨-25, [(7, -24)], [(-24, ⟨7, 2⟩)]⟩ (-24) (by decide) (by decide)

/-- C3: `cgopy_decref` (release) panics (embedded as `none`) on an
untracked address; on a tracked address with count above 1 it decrements
the count and keeps the entry; with count 1 it removes the entry from
both maps.  After two acquires of address 1 from the initial state, two
releases remove the entry and a third release panics. -/
theorem cgopy_decref_spec (s : RefsState) (a : Int) :
    (mlookup s.refs a = none → cgopy_decref s a = none) ∧
    (∀ num c, mlookup s.refs a = some num → mlookup s.ptrs num = some c →
      1 < c.cnt → c.cnt < 2 ^ 31 →
      ∃ s', cgopy_decref s a = some s' ∧
        mlookup s'.refs a = some num ∧
        mlookup s'.ptrs num = some ⟨c.ptr, c.cnt - 1⟩ ∧ s'.next = s.next) ∧
    (∀ num c, mlookup s.refs a = some num → mlookup s.ptrs num = some c →
      c.cnt = 1 →
      ∃ s', cgopy_decref s a = some s' ∧
        mlookup s'.refs a = none ∧ mlookup s'.ptrs num = none ∧
        s'.next = s.next) ∧
    (runOps refsInit [.incref 1, .incref 1, .decref 1, .decref 1] =
        some ({ next := -25, refs := [], ptrs := [] }, [-24]) ∧
      cgopy_decref { next := -25, refs := [], ptrs := [] } 1 = none) := by
  refine ⟨?_, ?_, ?_, by decide, by decide⟩
  · intro h
    simp [cgopy_decref, h]
  · intro num c h1 h2 hgt hlt
    have hw : int32wrap (c.cnt - 1) = c.cnt - 1 :=
      int32wrap_eq_self _ (by omega) (by omega)
    have hng : ¬ (c.cnt ≤ 1) := by omega
    refine ⟨{ s with ptrs := mupd s.ptrs num ⟨c.ptr, c.cnt - 1⟩ }, ?_, h1, ?_, rfl⟩
    · simp [cgopy_decref, h1, h2, hw, hng]
    · exact mlookup_mupd_self ..
  · intro num c h1 h2 hone
    have hng : int32wrap (c.cnt - 1) ≤ 0 := by
      rw [hone]
      norm_num [int32wrap]
    refine ⟨{ s with ptrs := merase s.ptrs num, refs := merase s.refs a }, ?_, ?_, ?_, rfl⟩
    · simp [cgopy_decref, h1, h2, hng]
    · exact mlookup_merase_self ..
    · exact mlookup_merase_self ..

/-- Concrete instantiation of `cgopy_decref_spec`. -/
theorem cgopy_decref_spec_witness :
    (cgopy_decref refsInit 3 = none) ∧
    (∃ s', cgopy_decref ⟨-25, [(1, -24)], [(-24, ⟨1, 2⟩)]⟩ 1 = some s' ∧
        mlookup s'.refs 1 = some (-24) ∧
        mlookup s'.ptrs (-24) = some ⟨1, 1⟩ ∧ s'.next = -25) ∧
    (∃ s', cgopy_decref ⟨-25, [(1, -24)], [(-24, ⟨1, 1⟩)]⟩ 1 = some s' ∧
        mlookup s'.refs 1 = none ∧ mlookup s'.ptrs (-24) = none ∧
        s'.next = -25) := by
  refine ⟨?_, ?_, ?_⟩
  · exact (cgopy_decref_spec refsInit 3).1 (by decide)
  · exact (cgopy_decref_spec ⟨-25, [(1, -24)], [(-24, ⟨1, 2⟩)]⟩ 1).2.1
      (-24) ⟨1, 2⟩ (by decide) (by decide) (by norm_num) (by norm_num)
  · exact (cgopy_decref_spec ⟨-25, [(1, -24)], [(-24, ⟨1, 1⟩)]⟩ 1).2.2.1
      (-24) ⟨1, 1⟩ (by decide) (by decide) rfl

theorem int32wrap_mem (x : Int) : -2 ^ 31 ≤ int32wrap x ∧ int32wrap x < 2 ^ 31 := by
  unfold int32wrap
  have h1 : (0 : Int) ≤ (x + 2 ^ 31) % 2 ^ 32 := Int.emod_nonneg _ (by norm_num)
  have h2 : (x + 2 ^ 31) % 2 ^ 32 < 2 ^ 32 := Int.emod_lt_of_pos _ (by norm_num)
  constructor <;> omega

theorem int32wrap_pred (x : Int) (hlo : -2 ^ 31 ≤ x) (hhi : x < 0)
    (hng : ¬ int32wrap (x - 1) > 0) :
    int32wrap (x - 1) = x - 1 := by
  rcases eq_or_lt_of_le hlo with heq | hlt
  · exfalso
    apply hng
    rw [← heq]
    norm_num [int32wrap]
  · exact int32wrap_eq_self _ (by omega) (by omega)

theorem runOps_cons_some (s : RefsState) (op : BridgeOp) (rest : List BridgeOp)
    (s' : RefsState) (ids : List Int)
    (h : runOps s (op :: rest) = some (s', ids)) :
    ∃ s1 ids1 ids2, stepOp s op = some (s1, ids1) ∧
      runOps s1 rest = some (s', ids2) ∧ ids = ids1 ++ ids2 := by
  unfold runOps at h
  split at h
  · simp at h
  · rename_i p hstep
    split at h
    · simp at h
    · rename_i q hrun
      obtain ⟨rfl, rfl⟩ := Prod.mk.inj (Option.some.inj h)
      exact ⟨p.1, p.2, q.2, by rw [hstep], by rw [hrun], rfl⟩

theorem stepOp_next_bounds (s : RefsState) (op : BridgeOp)
    (s1 : RefsState) (ids1 : List Int)
    (hlo : -2 ^ 31 ≤ s.next) (hhi : s.next < 0)
    (h : stepOp s op = some (s1, ids1)) :
    -2 ^ 31 ≤ s1.next ∧ s1.next < 0 ∧ s1.next ≤ s.next ∧
      (∀ i ∈ ids1, s1.next < i ∧ i ≤ s.next) ∧
      ids1.Pairwise (fun x y => y < x) := by
  cases op with
  | incref a =>
    cases hl : mlookup s.refs a with
    | some num =>
      simp [stepOp, hl, cgopy_incref] at h
      obtain ⟨rfl, rfl⟩ := h
      exact ⟨hlo, hhi, le_refl _, by simp, by simp⟩
    | none =>
      by_cases hg : int32wrap (s.next - 1) > 0
      · simp [stepOp, hl, cgopy_incref, hg] at h
      · have hw : int32wrap (s.next - 1) = s.next - 1 := int32wrap_pred s.next hlo hhi hg
        simp [stepOp, hl, cgopy_incref, hg] at h
        obtain ⟨rfl, rfl⟩ := h
        refine ⟨?_, ?_, ?_, ?_, by simp⟩
        · exact (int32wrap_mem (s.next - 1)).1
        · show int32wrap (s.next - 1) < 0
          rw [hw]; omega
        · show int32wrap (s.next - 1) ≤ s.next
          rw [hw]; omega
        · intro i hi
          simp at hi
          subst hi
          refine ⟨?_, le_refl _⟩
          show int32wrap (s.next - 1) < s.next
          rw [hw]; omega
  | decref a =>
    cases hl : mlookup s.refs a with
    | none => simp [stepOp, hl, cgopy_decref] at h
    | some num =>
      by_cases hz : int32wrap (((mlookup s.ptrs num).getD cobjZero).cnt - 1) ≤ 0
      · simp [stepOp, hl, cgopy_decref, hz] at h
        obtain ⟨rfl, rfl⟩ := h
        exact ⟨hlo, hhi, le_refl _, by simp, by simp⟩
      · simp [stepOp, hl, cgopy_decref, hz] at h
        obtain ⟨rfl, rfl⟩ := h
        exact ⟨hlo, hhi, le_refl _, by simp, by simp⟩

theorem runOps_inv (ops : List BridgeOp) :
    ∀ (s s' : RefsState) (ids : List Int),
      -2 ^ 31 ≤ s.next → s.next < 0 →
      runOps s ops = some (s', ids) →
      -2 ^ 31 ≤ s'.next ∧ s'.next < 0 ∧ s'.next ≤ s.next ∧
        (∀ i ∈ ids, s'.next < i ∧ i ≤ s.next) ∧
        ids.Pairwise (fun x y => y < x) := by
  induction ops with
  | nil =>
    intro s s' ids h1 h2 h
    simp [runOps] at h
    obtain ⟨rfl, rfl⟩ := h
    exact ⟨h1, h2, le_refl _, by simp, by simp⟩
  | cons op rest ih =>
    intro s s' ids h1 h2 h
    obtain ⟨s1, ids1, ids2, hstep, hrun, rfl⟩ := runOps_cons_some s op rest s' ids h
    obtain ⟨b1, b2, b3, b4, b5⟩ := stepOp_next_bounds s op s1 ids1 h1 h2 hstep
    obtain ⟨c1, c2, c3, c4, c5⟩ := ih s1 s' ids2 b1 b2 hrun
    refine ⟨c1, c2, le_trans c3 b3, ?_, ?_⟩
    · intro i hi
      rcases List.mem_append.mp hi with hi1 | hi2
      · exact ⟨lt_of_le_of_lt c3 (b4 i hi1).1, (b4 i hi1).2⟩
      · exact ⟨(c4 i hi2).1, le_trans (c4 i hi2).2 b3⟩
    · refine List.pairwise_append.mpr ⟨b5, c5, ?_⟩
      intro x hx y hy
      exact lt_of_le_of_lt (c4 y hy).2 (b4 x hx).1

/-- C4: along any successful run of acquire/release operations from the
initial table, the sequence of newly assigned reference numbers is
strictly decreasing (each new number is smaller than every earlier one),
contains no duplicates, and contains no nonnegative number. -/
theorem handle_ids_strictly_decreasing (ops : List BridgeOp)
    (s' : RefsState) (ids : List Int)
    (h : runOps refsInit ops = some (s', ids)) :
    ids.Pairwise (fun x y => y < x) ∧ ids.Nodup ∧ ∀ i ∈ ids, i < 0 := by
  have hinv := runOps_inv ops refsInit s' ids (by norm_num [refsInit])
    (by norm_num [refsInit]) h
  refine ⟨hinv.2.2.2.2, ?_, ?_⟩
  · exact hinv.2.2.2.2.imp (fun hxy => (ne_of_lt hxy).symm)
  · intro i hi
    have := (hinv.2.2.2.1 i hi).2
    have h24 : refsInit.next = -24 := rfl
    omega

/-- Concrete instantiation of `handle_ids_strictly_decreasing`: a run
that assigns two fresh numbers, re-acquires, and releases. -/
theorem handle_ids_strictly_decreasing_witness :
    ([-24, -25] : List Int).Pairwise (fun x y => y < x) ∧
      ([-24, -25] : List Int).Nodup ∧ ∀ i ∈ ([-24, -25] : List Int), i < 0 :=
  handle_ids_strictly_decreasing
    [.incref 1, .incref 2, .incref 1, .decref 1]
    ⟨-26, [(2, -25), (1, -24)], [(-24, ⟨1, 1⟩), (-25, ⟨2, 1⟩)]⟩
    [-24, -25] (by decide)

/-- C1: `newFuncFrom` applies the result-arity rules exactly: 0 results
gives no value and no error; 1 result gives error-only if the result is
the failure-indicator type and a sole value result otherwise; 2 results
require the second to be the failure indicator (else a classification
error naming the offending callable) and make the first the value
result; 3 or more results always fail with an error naming the offending
callable. -/
theorem newFuncFrom_arity (p : Package) (parent : String) (obj : Object)
    (sig : TypesSignature) :
    match sig.results with
    | [] =>
      ∃ f, newFuncFrom p parent obj sig = .ok f ∧ f.err = false ∧ f.ret = none
    | [r0] =>
      if isErrorType r0.typ then
        ∃ f, newFuncFrom p parent obj sig = .ok f ∧ f.err = true ∧ f.ret = none
      else
        ∃ f, newFuncFrom p parent obj sig = .ok f ∧ f.err = false ∧
          f.ret = some r0.typ
    | [r0, r1] =>
      if isErrorType r1.typ then
        ∃ f, newFuncFrom p parent obj sig = .ok f ∧ f.err = true ∧
          f.ret = some r0.typ
      else
        newFuncFrom p parent obj sig =
          .error ("bind: second result value must be of type error: " ++ obj.str)
    | _ :: _ :: _ :: _ =>
      newFuncFrom p parent obj sig =
        .error ("bind: too many results to return: " ++ obj.str) := by
  rcases hres : sig.results with _ | ⟨r0, _ | ⟨r1, rest⟩⟩
  · simp [newFuncFrom, hres]
  · by_cases h0 : isErrorType r0.typ
    · simp [newFuncFrom, hres, h0]
    · simp [newFuncFrom, hres, h0]
  · cases rest with
    | nil =>
      by_cases h1 : isErrorType r1.typ
      · simp [newFuncFrom, hres, h1]
      · simp [newFuncFrom, hres, h1]
    | cons r2 rest2 =>
      simp [newFuncFrom, hres]

theorem processTyps_funcs_subset (p : Package) (lookup : String → Object)
    (ts : List (String × Typ)) :
    ∀ (funcs : List (String × Func)) (nf : String × Func),
      nf ∈ (processTyps p lookup ts funcs).2 → nf ∈ funcs := by
  induction ts with
  | nil => intro funcs nf h; simpa [processTyps] using h
  | cons t0 ts ih =>
    intro funcs nf h
    cases t0 with
    | mk tname t =>
      simp only [processTyps] at h
      have := ih _ nf h
      exact (List.mem_filter.mp this).1

/-- C5: constructor promotion is a post-pass over the classified set:
every free function whose non-error result type equals some classified
type is removed from the free-function map and appended — ctor flag set,
doc re-fetched in the type's scope — to the constructor list of a type
with that Go type. -/
theorem ctor_promotion (p : Package) (lookup : String → Object)
    (typs : List (String × Typ)) (funcs : List (String × Func))
    (nf : String × Func) (te : String × Typ)
    (hmem : nf ∈ funcs) (hte : te ∈ typs)
    (hret : nf.2.ret = some te.2.goType) :
    nf ∉ (processTyps p lookup typs funcs).2 ∧
    ∃ te' ∈ (processTyps p lookup typs funcs).1,
      nf.2.ret = some te'.2.goType ∧
      { nf.2 with doc := getDoc p te'.1 (lookup nf.1), ctor := true } ∈
        te'.2.ctors := by
  induction typs generalizing funcs with
  | nil => cases hte
  | cons t0 ts ih =>
    cases t0 with
    | mk tname t =>
      by_cases hmatch : nf.2.ret = some t.goType
      · constructor
        · intro hcon
          simp only [processTyps] at hcon
          have hrest := processTyps_funcs_subset p lookup ts _ nf hcon
          have := (List.mem_filter.mp hrest).2
          simp [hmatch] at this
        · refine ⟨(tname, { t with ctors := t.ctors ++
            ((funcs.filter (fun nf => nf.2.ret = some t.goType)).map (fun nf =>
              { nf.2 with doc := getDoc p tname (lookup nf.1), ctor := true })) }),
            ?_, ?_, ?_⟩
          · simp [processTyps]
          · exact hmatch
          · simp only [List.mem_append]
            right
            refine List.mem_map.mpr ⟨nf, ?_, rfl⟩
            exact List.mem_filter.mpr ⟨hmem, by simp [hmatch]⟩
      · have hte' : te ∈ ts := by
          rcases List.mem_cons.mp hte with heq | h
          · exfalso
            apply hmatch
            rw [heq] at hret
            exact hret
          · exact h
        have hmem' : nf ∈ funcs.filter (fun nf => ¬ (nf.2.ret = some t.goType)) :=
          List.mem_filter.mpr ⟨hmem, by simp [hmatch]⟩
        obtain ⟨hnot, te', hte'', hgo, hctor⟩ := ih _ hmem' hte'
        constructor
        · intro hcon
          apply hnot
          simpa [processTyps] using hcon
        · refine ⟨te', ?_, hgo, hctor⟩
          simp only [processTyps, List.mem_cons]
          right
          exact hte''

/-- Concrete instantiation of `ctor_promotion`: after the pass on a
package with type `Foo` and free function `NewFoo() (Foo, error)`, the
free-function map is empty and `Foo` has exactly one constructor. -/
theorem ctor_promotion_witness :
    ("NewFoo", fNewFoo) ∉
      (processTyps pkgEx (fun _ => objNewFoo) [("Foo", fooTyp)]
        [("NewFoo", fNewFoo)]).2 ∧
    (∃ te' ∈ (processTyps pkgEx (fun _ => objNewFoo) [("Foo", fooTyp)]
        [("NewFoo", fNewFoo)]).1,
      ("NewFoo", fNewFoo).2.ret = some te'.2.goType ∧
      { ("NewFoo", fNewFoo).2 with
          doc := getDoc pkgEx te'.1 ((fun _ => objNewFoo) ("NewFoo", fNewFoo).1),
          ctor := true } ∈ te'.2.ctors) ∧
    (processTyps pkgEx (fun _ => objNewFoo) [("Foo", fooTyp)]
        [("NewFoo", fNewFoo)]).2 = [] ∧
    (processTyps pkgEx (fun _ => objNewFoo) [("Foo", fooTyp)]
        [("NewFoo", fNewFoo)]).1.map (fun te => te.2.ctors.length) = [1] := by
  refine ⟨?_, ?_, by decide, by decide⟩
  · exact (ctor_promotion pkgEx (fun _ => objNewFoo) [("Foo", fooTyp)]
      [("NewFoo", fNewFoo)] ("NewFoo", fNewFoo) ("Foo", fooTyp)
      (by decide) (by decide) (by decide)).1
  · exact (ctor_promotion pkgEx (fun _ => objNewFoo) [("Foo", fooTyp)]
      [("NewFoo", fNewFoo)] ("NewFoo", fNewFoo) ("Foo", fooTyp)
      (by decide) (by decide) (by decide)).2

/-- C6 counterexample: the Func built for `NewFoo() (Foo, error)` has
the error-convention flag set, yet its Signature results list still
contains both entries — the failure indicator is not stripped from the
results list. -/
theorem func_results_keep_error_entry :
    (newFuncFrom pkgEx "" objNewFoo sigNewFoo).toOption.map (fun f => f.err) =
      some true ∧
    (newFuncFrom pkgEx "" objNewFoo sigNewFoo).toOption.map
        (fun f => f.sig.ret.map Var.typ) =
      some [.named "ex/pkg.Foo", .error] ∧
    (newFuncFrom pkgEx "" objNewFoo sigNewFoo).toOption.map
        (fun f => f.sig.ret.length) ≠ some 1 ∧
    (newFuncFrom pkgEx "" objNewFoo sigNewFoo).toOption.map
        (fun f => f.sig.ret.length) ≠ some 0 := by
  refine ⟨by decide, by decide, by decide, by decide⟩

/-- C6 amended: for every error-convention Func built by the analyzer,
the non-error value result is tracked separately in the `ret` field
(`none` for error-only, the first result's type otherwise), while the
Signature results list retains all original results, including the
failure indicator. -/
theorem func_error_convention_tracks_ret (p : Package) (parent : String)
    (obj : Object) (sig : TypesSignature) (f : Func)
    (hok : newFuncFrom p parent obj sig = .ok f) (herr : f.err = true) :
    f.sig.ret = sig.results ∧
    ((∃ r0, sig.results = [r0] ∧ isErrorType r0.typ = true ∧ f.ret = none) ∨
     (∃ r0 r1, sig.results = [r0, r1] ∧ isErrorType r1.typ = true ∧
       f.ret = some r0.typ)) := by
  rcases hres : sig.results with _ | ⟨r0, _ | ⟨r1, rest⟩⟩
  · simp [newFuncFrom, hres] at hok
    rw [← hok] at herr
    simp at herr
  · by_cases h0 : isErrorType r0.typ
    · simp [newFuncFrom, hres, h0] at hok
      rw [← hok]
      exact ⟨by simp [newSignatureFrom, hres], Or.inl ⟨r0, rfl, h0, rfl⟩⟩
    · simp [newFuncFrom, hres, h0] at hok
      rw [← hok] at herr
      simp at herr
  · cases rest with
    | nil =>
      by_cases h1 : isErrorType r1.typ
      · simp [newFuncFrom, hres, h1] at hok
        rw [← hok]
        exact ⟨by simp [newSignatureFrom, hres], Or.inr ⟨r0, r1, rfl, h1, rfl⟩⟩
      · simp [newFuncFrom, hres, h1] at hok
    | cons r2 rest2 =>
      simp [newFuncFrom, hres] at hok

/-- Concrete instantiation of `func_error_convention_tracks_ret` at
`NewFoo() (Foo, error)`. -/
theorem func_error_convention_tracks_ret_witness :
    fNewFoo.sig.ret = sigNewFoo.results ∧
    ((∃ r0, sigNewFoo.results = [r0] ∧ isErrorType r0.typ = true ∧
        fNewFoo.ret = none) ∨
     (∃ r0 r1, sigNewFoo.results = [r0, r1] ∧ isErrorType r1.typ = true ∧
        fNewFoo.ret = some r0.typ)) :=
  func_error_convention_tracks_ret pkgEx "" objNewFoo sigNewFoo fNewFoo
    (by rfl) (by decide)

/-- C8 counterexample: the classified package and the generated output
depend on the Go map enumeration order, which the Go runtime does not
fix across runs.  The same free-function map, enumerated in two orders,
yields different emitted wrapper sequences — output is not byte-stable
by construction. -/
theorem generation_depends_on_map_order :
    ([("Add", funcAdd), ("Sub", funcSub)] : List (String × Func)).Perm
        [("Sub", funcSub), ("Add", funcAdd)] ∧
    goGenFuncNames (addFuncs
        (processTyps pkgEx (fun _ => objNewFoo) []
          [("Add", funcAdd), ("Sub", funcSub)]).2) ≠
      goGenFuncNames (addFuncs
        (processTyps pkgEx (fun _ => objNewFoo) []
          [("Sub", funcSub), ("Add", funcAdd)]).2) := by
  constructor
  · exact List.Perm.swap _ _ _
  · decide

/-- C8 amended: the generated identifiers themselves are deterministic —
`newFuncFrom` derives `id` and `desc` from the package name, package
path, owning scope and object name alone. -/
theorem newFuncFrom_id_deterministic (p : Package) (parent : String)
    (obj : Object) (sig : TypesSignature) (f : Func)
    (hok : newFuncFrom p parent obj sig = .ok f) :
    f.id = (if parent = "" then obj.pkgName ++ "_" ++ obj.name
            else obj.pkgName ++ "_" ++ parent ++ "_" ++ obj.name) ∧
    f.desc = (if parent = "" then obj.pkgPath ++ "." ++ obj.name
              else obj.pkgPath ++ "." ++ parent ++ "." ++ obj.name) := by
  rcases hres : sig.results with _ | ⟨r0, _ | ⟨r1, rest⟩⟩
  · simp [newFuncFrom, hres] at hok
    rw [← hok]
    by_cases hp : parent = "" <;> simp [hp]
  · by_cases h0 : isErrorType r0.typ
    · simp [newFuncFrom, hres, h0] at hok
      rw [← hok]
      by_cases hp : parent = "" <;> simp [hp]
    · simp [newFuncFrom, hres, h0] at hok
      rw [← hok]
      by_cases hp : parent = "" <;> simp [hp]
  · cases rest with
    | nil =>
      by_cases h1 : isErrorType r1.typ
      · simp [newFuncFrom, hres, h1] at hok
        rw [← hok]
        by_cases hp : parent = "" <;> simp [hp]
      · simp [newFuncFrom, hres, h1] at hok
    | cons r2 rest2 =>
      simp [newFuncFrom, hres] at hok

/-- Concrete instantiation of `newFuncFrom_id_deterministic`. -/
theorem newFuncFrom_id_deterministic_witness :
    fNewFoo.id = (if "" = "" then objNewFoo.pkgName ++ "_" ++ objNewFoo.name
        else objNewFoo.pkgName ++ "_" ++ "" ++ "_" ++ objNewFoo.name) ∧
    fNewFoo.desc = (if "" = "" then objNewFoo.pkgPath ++ "." ++ objNewFoo.name
        else objNewFoo.pkgPath ++ "." ++ "" ++ "." ++ objNewFoo.name) :=
  newFuncFrom_id_deterministic pkgEx "" objNewFoo sigNewFoo fNewFoo (by rfl)

/-- C9 counterexample: for a function with no matching documentation
entry, `getDoc` does not yield the empty string — it yields the
synthesized signature line (here `"Hi() "`), as the repository's own
expected test output (`doc(hi.Hi)` in `main_test.go`) shows. -/
theorem getDoc_func_absent_not_empty :
    getDoc pkgEx "" objHi = "Hi() " ∧ getDoc pkgEx "" objHi ≠ "" := by
  refine ⟨by decide, by decide⟩

/-- C9 amended: documentation lookup never fails for the four supported
declaration kinds: for constants, variables and type names an absent
entry yields the empty string, while for functions and methods the
result always carries the synthesized signature line and is therefore
never the empty string, matched entry or not. -/
theorem getDoc_lookup_spec (p : Package) (parent : String) (o : Object) :
    (o.kind = .const →
      (∀ c ∈ p.doc.consts, ¬ c.names.contains o.name = true) →
      getDoc p parent o = "") ∧
    (o.kind = .var →
      (∀ v ∈ p.doc.vars, ¬ v.names.contains o.name = true) →
      getDoc p parent o = "") ∧
    (o.kind = .typeName →
      (∀ t ∈ p.doc.types, ¬ (o.name = t.name)) →
      getDoc p parent o = "") ∧
    (o.kind = .func → getDoc p parent o ≠ "") := by
  refine ⟨?_, ?_, ?_, ?_⟩
  · intro hk habs
    have hfind : p.doc.consts.find? (fun c => c.names.contains o.name) = none :=
      List.find?_eq_none.mpr habs
    simp only [getDoc, hk]
    rw [hfind]
  · intro hk habs
    have hfind : p.doc.vars.find? (fun v => v.names.contains o.name) = none :=
      List.find?_eq_none.mpr habs
    simp only [getDoc, hk]
    rw [hfind]
  · intro hk habs
    have hfind : p.doc.types.find? (fun t => o.name = t.name) = none :=
      List.find?_eq_none.mpr (by simpa using habs)
    simp only [getDoc, hk]
    rw [hfind]
    rfl
  · intro hk hcontra
    simp only [getDoc, hk] at hcontra
    have hpar : String.length "(" = 1 := rfl
    have hres : String.length ") " = 2 := rfl
    have h3 : 3 ≤ (funcDocSig p o).length := by
      simp only [funcDocSig, String.length_append, hpar, hres]
      omega
    by_cases hc : funcDocLookup p parent o ≠ ""
    · rw [if_pos hc] at hcontra
      have hlen := congrArg String.length hcontra
      simp only [String.length_append, String.length_empty] at hlen
      omega
    · rw [if_neg hc] at hcontra
      have hlen := congrArg String.length hcontra
      simp only [String.length_empty] at hlen
      omega

/-- Concrete instantiation of `getDoc_lookup_spec` on an empty
documentation index, one object per declaration kind. -/
theorem getDoc_lookup_spec_witness :
    getDoc pkgEx "" objKonst = "" ∧ getDoc pkgEx "" objVee = "" ∧
    getDoc pkgEx "" objTee = "" ∧ getDoc pkgEx "" objHi ≠ "" := by
  refine ⟨?_, ?_, ?_, ?_⟩
  · exact (getDoc_lookup_spec pkgEx "" objKonst).1 rfl (by simp [pkgEx, docPkgEx])
  · exact (getDoc_lookup_spec pkgEx "" objVee).2.1 rfl (by simp [pkgEx, docPkgEx])
  · exact (getDoc_lookup_spec pkgEx "" objTee).2.2.1 rfl (by simp [pkgEx, docPkgEx])
  · exact (getDoc_lookup_spec pkgEx "" objHi).2.2.2 rfl

/-- C7: for every error-convention Func, the emitted wrapper body
contains, directly after the call into the cgo wrapper, the block that
tests the failure indicator, sets the Python exception state with the
error's message, and returns the failure sentinel `NULL`; value
construction (ctor allocation or `Py_BuildValue`) appears only after
that block, guarded by it. -/
theorem cpy_err_translation (ve : VarEmit) (f : Func) (herr : f.err = true) :
    (∀ r, f.sig.ret = [r] →
      cpyGenFuncBody ve f =
        some (cpyFuncPre ve f ++ cpyErrBlock "c_gopy_ret" ++ [pyNoneReturn])) ∧
    (∀ r0 r1, f.sig.ret = [r0, r1] →
      cpyGenFuncBody ve f =
        some (cpyFuncPre ve f ++ cpyErrBlock "c_gopy_ret.r1" ++
          (if f.ctor then cpyCtorReturn ve r0 "c_gopy_ret.r0"
           else ["return Py_BuildValue(" ++ goQuote (ve.buildValueFmt r0) ++
             ", c_gopy_ret.r0);\n"]))) := by
  constructor
  · intro r hret
    simp [cpyGenFuncBody, hret, herr]
  · intro r0 r1 hret
    simp [cpyGenFuncBody, hret, herr]

/-- Concrete instantiation of `cpy_err_translation` at the Funcs for
`Do() error` (error-only) and `NewFoo() (Foo, error)` (value and
error). -/
theorem cpy_err_translation_witness :
    cpyGenFuncBody veEx fDoErr =
      some (cpyFuncPre veEx fDoErr ++ cpyErrBlock "c_gopy_ret" ++
        [pyNoneReturn]) ∧
    cpyGenFuncBody veEx fNewFoo =
      some (cpyFuncPre veEx fNewFoo ++ cpyErrBlock "c_gopy_ret.r1" ++
        (if fNewFoo.ctor then
          cpyCtorReturn veEx ⟨"", .named "ex/pkg.Foo"⟩ "c_gopy_ret.r0"
         else ["return Py_BuildValue(" ++
           goQuote (veEx.buildValueFmt ⟨"", .named "ex/pkg.Foo"⟩) ++
           ", c_gopy_ret.r0);\n"])) :=
  ⟨(cpy_err_translation veEx fDoErr (by decide)).1 ⟨"", .error⟩ (by decide),
   (cpy_err_translation veEx fNewFoo (by decide)).2
     ⟨"", .named "ex/pkg.Foo"⟩ ⟨"", .error⟩ (by decide)⟩

/-- C10: every generated `tp_init` body ends with the unconditional
argument-rejection guard followed by `return 0` — whatever the promoted
constructor list and however the keyword map is enumerated — so
construction with any positional or keyword argument sets a `TypeError`
stating that `__init__` takes no argument and returns failure (-1),
while zero-argument construction returns 0. -/
theorem struct_init_rejects_args (cpy : Struct) (kwOrder : List (String × Nat))
    (nargs nkwds : Nat) :
    (∃ pre, (cpyGenStructInit cpy kwOrder).2 =
        pre ++ structInitArgGuard cpy.goname ++ ["return 0;\n", "\x7d\n\n"]) ∧
    (0 < nargs + nkwds →
      cpyStructInitRun cpy.goname nargs nkwds =
        (-1, some ("PyExc_TypeError",
          cpy.goname ++ ".__init__ takes no argument"))) ∧
    cpyStructInitRun cpy.goname 0 0 = (0, none) := by
  refine ⟨?_, ?_, by simp [cpyStructInitRun]⟩
  · refine ⟨["/* tp_init */\n",
      "static int\ncpy_func_" ++ cpy.symId ++ "_init(" ++ cpy.cpyname ++
        " *self, PyObject *args, PyObject *kwds) \x7b\n",
      "static char *kwlist[] = \x7b\n"] ++
      kwOrder.map (fun kv => goQuote kv.1 ++ ", /* py_kwd_" ++ toString kv.2 ++ " */\n") ++
      ["NULL\n", "\x7d;\n"] ++
      kwOrder.map (fun kv => "PyObject *py_kwd_" ++ toString kv.2 ++ " = NULL;\n"), ?_⟩
    simp [cpyGenStructInit]
  · intro hpos
    have : 0 < nkwds + nargs := by omega
    simp [cpyStructInitRun, this]

/-- Concrete instantiation of `struct_init_rejects_args` at the wrapped
struct `Foo`, which has one promoted constructor, with one positional
argument. -/
theorem struct_init_rejects_args_witness :
    (∃ pre, (cpyGenStructInit structEx (structInitKwds structEx.ctors)).2 =
        pre ++ structInitArgGuard "Foo" ++ ["return 0;\n", "\x7d\n\n"]) ∧
    cpyStructInitRun "Foo" 1 0 =
      (-1, some ("PyExc_TypeError", "Foo.__init__ takes no argument")) ∧
    cpyStructInitRun "Foo" 0 0 = (0, none) := by
  obtain ⟨h1, h2, h3⟩ :=
    struct_init_rejects_args structEx (structInitKwds structEx.ctors) 1 0
  exact ⟨h1, h2 (by norm_num), h3⟩

end GoPy
